import Mathlib

/-
Verification of the directory-wide PL/SQL review pipeline
(bin/ai_plsql_review.py together with modules/validator.py).

The embedding models the Python values flowing through the pipeline
(dictionaries parsed from JSON replies), the schema validator, the
per-file aggregation helpers, the run-level aggregator, the structured
stage executor with its single correction pass, and the orchestrator's
per-file failure isolation.  Fallible Python code (functions that can
raise) is embedded as functions into Except.  Prompt builders and the
external text-generation service are opaque collaborators and are
passed as explicit function arguments, as the specification treats
them.  Wall-clock timestamps are passed in as an explicit argument.
-/

/-- A Python value as produced by json.loads and manipulated by the
pipeline: strings, integers, booleans, None, lists, and dicts
(modelled as insertion-ordered association lists, as Python dicts
preserve insertion order). -/
inductive PyVal where
  | str (s : String)
  | int (n : Int)
  | bool (b : Bool)
  | none
  | list (xs : List PyVal)
  | dict (kvs : List (String × PyVal))

/-- A Python dict with string keys, in insertion order. -/
abbrev PyDict := List (String × PyVal)

/-- Python dict lookup: d.get(k), returning none when the key is absent. -/
def dictGet : PyDict → String → Option PyVal
  | [], _ => Option.none
  | (k1, v) :: d, k => if k1 = k then some v else dictGet d k

/-- Python membership test: k in d (over the keys). -/
def dictContains (d : PyDict) (k : String) : Bool :=
  (dictGet d k).isSome

/-- Python assignment d[k] = v: replace in place if the key exists,
otherwise append at the end. -/
def dictSet : PyDict → String → PyVal → PyDict
  | [], k, v => [(k, v)]
  | (k1, v1) :: d, k, v =>
      if k1 = k then (k1, v) :: d else (k1, v1) :: dictSet d k v

/-- Python d.setdefault(k, v): leave the dict unchanged when the key is
present, otherwise append (k, v). -/
def dictSetdefault (d : PyDict) (k : String) (v : PyVal) : PyDict :=
  if dictContains d k then d else d ++ [(k, v)]

/-- Python truthiness of a value. -/
def pyTruthy : PyVal → Bool
  | .str s => s ≠ ""
  | .int n => n ≠ 0
  | .bool b => b
  | .none => false
  | .list xs => !xs.isEmpty
  | .dict kvs => !kvs.isEmpty

/-- A single-quote character, used by the Python repr of strings. -/
def squote : String := String.singleton (Char.ofNat 39)

/-- Python str.lower() (ASCII; the severity strings involved are
ASCII). -/
def pyLower (s : String) : String := String.mk (s.data.map Char.toLower)

/-- Python str.upper() (ASCII; the category names involved are
ASCII). -/
def pyUpper (s : String) : String := String.mk (s.data.map Char.toUpper)

/-- Python str.strip(): remove leading and trailing whitespace. -/
def pyStrip (s : String) : String :=
  String.mk
    (((s.data.dropWhile Char.isWhitespace).reverse.dropWhile Char.isWhitespace).reverse)

mutual

/-- Python repr of a value (string escaping inside quotes is not
modelled; no reviewed input contains quote characters). -/
def pyRepr : PyVal → String
  | .str s => squote ++ s ++ squote
  | .int n => toString n
  | .bool b => if b then "True" else "False"
  | .none => "None"
  | .list xs => "[" ++ String.intercalate ", " (pyReprList xs) ++ "]"
  | .dict kvs => "\x7b" ++ String.intercalate ", " (pyReprKVs kvs) ++ "\x7d"

/-- repr of the elements of a list. -/
def pyReprList : List PyVal → List String
  | [] => []
  | v :: vs => pyRepr v :: pyReprList vs

/-- repr of the entries of a dict. -/
def pyReprKVs : List (String × PyVal) → List String
  | [] => []
  | (k, v) :: kvs => (squote ++ k ++ squote ++ ": " ++ pyRepr v) :: pyReprKVs kvs

end

/-- Python str(v): the string itself for strings, repr otherwise. -/
def pyStr : PyVal → String
  | .str s => s
  | v => pyRepr v

/-- The error taxonomy of the pipeline.  The Python source raises
ValueError / TypeError / AttributeError; the constructors follow the
specification's names where it has them, and carry, for the
structured-stage failure, both parse errors and both raw texts. -/
inductive PipeError where
  | schemaViolation (msg : String)
  | typeError (msg : String)
  | attributeError (msg : String)
  | structuredOutputInvalid (stage : String) (origErr corrErr rawText fixedText : String)
deriving DecidableEq

/-- Python iteration over a value (for x in v): lists yield their
elements, strings their characters (as one-character strings), dicts
their keys; numbers, booleans and None are not iterable. -/
def pyIterate : PyVal → Except PipeError (List PyVal)
  | .list xs => .ok xs
  | .str s => .ok (s.data.map (fun c => .str (String.singleton c)))
  | .dict kvs => .ok (kvs.map (fun kv => .str kv.1))
  | _ => .error (.typeError "object is not iterable")

/-- Python (v or "").lower() applied to an optional dict entry, as in
aggregate_results: a missing or falsy value becomes the empty string;
.lower() on a truthy non-string raises AttributeError. -/
def pyLowerOrEmpty (o : Option PyVal) : Except PipeError String :=
  let v := match o with
    | some v => if pyTruthy v then v else .str ""
    | Option.none => .str ""
  match v with
  | .str s => .ok (pyLower s)
  | _ => .error (.attributeError "lower")

/-
modules/validator.py
-/

/-- The seven fixed classification categories (validator.py lines 33-41). -/
def required_categories : List String :=
  ["performance", "error_handling", "logic_correctness", "maintainability",
   "security", "data_integrity", "uncertainty"]

/-- validator.py _ensure_keys: raise on the first missing required key. -/
def ensure_keys (obj : PyDict) (required_keys : List String) (context : String) :
    Except PipeError Unit :=
  required_keys.forM fun key =>
    if dictContains obj key then pure ()
    else .error (.schemaViolation (context ++ ": missing required key " ++ key))

/-- validator.py validate_classification: the seven categories must be
present, each must be a list, and then every entry of every key of the
dict (required or not: the source iterates data.items()) must be a
string; iterating a non-iterable value raises.  The code argument is
unused, as in the source. -/
def validate_classification (data : PyDict) (code : String) : Except PipeError Unit := do
  ensure_keys data required_categories "Classification"
  required_categories.forM fun key =>
    match dictGet data key with
    | some (.list _) => pure ()
    | _ => .error (.schemaViolation ("Classification: " ++ key ++ " should be a list"))
  data.forM fun kv => do
    let issues ← pyIterate kv.2
    issues.forM fun issue =>
      match issue with
      | .str _ => pure ()
      | _ => .error (.schemaViolation ("Classification: entry in " ++ kv.1 ++ " is not a string"))

/-
bin/ai_plsql_review.py, per-file aggregation helpers
-/

/-- The body of the inner loop of _flatten_issues_from_classification
(lines 226-239): turn one element of a category list into an issue
dict.  A non-dict element becomes a dict with its string form as the
message; the category is attached, the severity normalized (a truthy
non-string severity raises AttributeError from .lower()), and a
default code derived from the category. -/
def processIssue (category : String) (issue : PyVal) : Except PipeError PyDict := do
  let issue_dict : PyDict :=
    match issue with
    | .dict d => d
    | v => [("message", .str (pyStr v))]
  let issue_dict := dictSetdefault issue_dict "category" (.str category)
  -- sev = (issue_dict.get("severity") or "medium").lower()
  let sev0 : PyVal :=
    match dictGet issue_dict "severity" with
    | some v => if pyTruthy v then v else .str "medium"
    | Option.none => .str "medium"
  let sev1 : String ←
    match sev0 with
    | .str s => .ok (pyLower s)
    | _ => .error (.attributeError "lower")
  let sev := if sev1 = "low" ∨ sev1 = "medium" ∨ sev1 = "high" ∨ sev1 = "critical"
    then sev1 else "medium"
  let issue_dict := dictSet issue_dict "severity" (.str sev)
  let issue_dict := dictSetdefault issue_dict "code" (.str (pyUpper category))
  .ok issue_dict

/-- One iteration of the outer loop of
_flatten_issues_from_classification (lines 222-239): a value that is
not a list is skipped; list elements are processed in order and
appended to the running issue list. -/
def flattenStep (issues : List PyDict) (kv : String × PyVal) :
    Except PipeError (List PyDict) :=
  match kv.2 with
  | .list items =>
      items.foldlM
        (fun acc issue => do
          let issue_dict ← processIssue kv.1 issue
          pure (acc ++ [issue_dict]))
        issues
  | _ => pure issues

/-- _flatten_issues_from_classification, the outer loop over the
classification's items. -/
def flatten_issues_from_classification (classification : PyDict) :
    Except PipeError (List PyDict) :=
  classification.foldlM flattenStep []

/-- severity_weights.get(sev, 10) of _compute_risk_score (line 249):
weight of an issue's severity value, defaulting to 10. -/
def severity_weight : PyVal → Int
  | .str "low" => 5
  | .str "medium" => 10
  | .str "high" => 20
  | .str "critical" => 30
  | _ => 10

/-- _compute_risk_score (lines 244-262): sum of severity weights over
the flattened issues, plus 5 per analysis risk entry when the risks
value is a list, clamped to [0, 100]. -/
def compute_risk_score (classification : PyDict) (analysis : PyDict) :
    Except PipeError Int := do
  let issues ← flatten_issues_from_classification classification
  let score : Int := issues.foldl
    (fun sc issue => sc + severity_weight ((dictGet issue "severity").getD (.str "medium")))
    0
  -- risks = analysis.get("risks") or []
  let risks : PyVal :=
    match dictGet analysis "risks" with
    | some v => if pyTruthy v then v else .list []
    | Option.none => .list []
  let score : Int :=
    match risks with
    | .list rs => score + 5 * (rs.length : Int)
    | _ => score
  .ok (max 0 (min 100 score))

/-
bin/ai_plsql_review.py, run-level aggregation (lines 560-596)
-/

/-- The normalized per-file result dict returned by process_file
(lines 550-557): its keys are fixed, so it is embedded as a record. -/
structure FileResult where
  path : String
  risk_score : Int
  summary : String
  issues : List PyDict
  refactor_suggestions : List String
  checklist_items : List String

/-- One red-flag entry as built at lines 576-583: the originating file
path plus the issue's raw severity, code and message values (missing
keys become None, as with dict.get). -/
structure RedFlag where
  file : String
  severity : PyVal
  code : PyVal
  message : PyVal

/-- The run-level summary dict built by aggregate_results (lines
588-596).  The wall-clock timestamp is an explicit input. -/
structure AggregatedSummary where
  run_id : String
  timestamp_utc : String
  scanned_files : Nat
  overall_risk_score : Int
  red_flags : List RedFlag
  files : List FileResult
  checklist : List String

/-- Python round() of the exact rational p / n (ties to even).  The
source divides two machine integers as floats; the values involved are
small enough that the float result is exact. -/
def pyRoundDiv (p : Int) (n : Nat) : Int :=
  let q := Int.fdiv p n
  let r := Int.fmod p n
  if 2 * r < n then q
  else if (n : Int) < 2 * r then q + 1
  else if q % 2 = 0 then q else q + 1

/-- Lines 561-567: mean per-file risk score, rounded; 0 when no file
was successfully processed. -/
def overall_risk (file_results : List FileResult) : Int :=
  if file_results.length = 0 then 0
  else pyRoundDiv (file_results.foldl (fun s fr => s + fr.risk_score) 0) file_results.length

/-- The red-flag entry built at lines 576-583 for one issue: the
originating file path and the issue's raw severity, code and message
(dict.get, so a missing key becomes None). -/
def mkRedFlag (path : String) (issue : PyDict) : RedFlag :=
  { file := path,
    severity := (dictGet issue "severity").getD .none,
    code := (dictGet issue "code").getD .none,
    message := (dictGet issue "message").getD .none }

/-- The red-flag body of the inner issues loop (lines 573-583):
lower the issue's severity (or "" when absent/falsy) and append an
annotated entry when it is high or critical. -/
def redFlagStep (path : String) (rfs : List RedFlag) (issue : PyDict) :
    Except PipeError (List RedFlag) := do
  let sev ← pyLowerOrEmpty (dictGet issue "severity")
  if sev = "high" ∨ sev = "critical" then
    .ok (rfs ++ [mkRedFlag path issue])
  else
    .ok rfs

/-- The checklist body of the inner loop (lines 584-586): append the
item unless it is already present. -/
def checklistStep (checklist : List String) (item : String) : List String :=
  if item ∈ checklist then checklist else checklist ++ [item]

/-- One iteration of the per-file loop of aggregate_results (lines
572-586): first the issues loop, then the checklist loop. -/
def aggregate_file_step (acc : List RedFlag × List String) (fr : FileResult) :
    Except PipeError (List RedFlag × List String) := do
  let rfs ← fr.issues.foldlM (redFlagStep fr.path) acc.1
  let cl := fr.checklist_items.foldl checklistStep acc.2
  .ok (rfs, cl)

/-- aggregate_results (lines 560-596). -/
def aggregate_results (run_id : String) (now : String) (file_results : List FileResult) :
    Except PipeError AggregatedSummary := do
  let (rfs, cl) ← file_results.foldlM aggregate_file_step ([], [])
  .ok { run_id := run_id,
        timestamp_utc := now,
        scanned_files := file_results.length,
        overall_risk_score := overall_risk file_results,
        red_flags := rfs,
        files := file_results,
        checklist := cl }

/-
bin/ai_plsql_review.py, structured stage executor (lines 80-116)
-/

/-- modules/prompts.py CLASSIFICATION_JSON_TEMPLATE: the canonical
field-shape template handed to the correction prompt. -/
def CLASSIFICATION_JSON_TEMPLATE : String :=
  "\x7b\n  \"performance\": [\"string\"],\n  \"error_handling\": [\"string\"],\n  \"logic_correctness\": [\"string\"],\n  \"maintainability\": [\"string\"],\n  \"security\": [\"string\"],\n  \"data_integrity\": [\"string\"],\n  \"uncertainty\": [\"string\"]\n\x7d"

/-- The externally observable actions of one structured stage
invocation: the requests sent to the external service (system and user
prompt pairs, in order) and the texts handed to the JSON parser, in
order. -/
structure StepTrace where
  requests : List (String × String)
  parseAttempts : List String

/-- run_classification_step (lines 97-116) together with _correct_json
(lines 80-87), instrumented with its trace of external requests and
parse attempts.  The prompt builders (buildClass for
build_classification_prompt, buildCorrection for
build_json_correction_prompt), the external service (callLLM) and the
JSON parser (parse, for json.loads) are opaque collaborators passed as
arguments; replies are stripped as in the source.  After a successful
parse the value goes to the schema validator, whose failure is not
corrected. -/
def run_classification_step_traced
    (buildClass : String → String × String)
    (buildCorrection : String → String → String × String)
    (callLLM : String → String → String)
    (parse : String → Except String PyDict)
    (code : String) :
    Except PipeError PyDict × StepTrace :=
  let p := buildClass code
  let raw := pyStrip (callLLM p.1 p.2)
  match parse raw with
  | .ok data =>
      (match validate_classification data code with
       | .ok _ => .ok data
       | .error e => .error e,
       { requests := [p], parseAttempts := [raw] })
  | .error exc =>
      -- Attempt one correction pass (_correct_json)
      let cp := buildCorrection raw CLASSIFICATION_JSON_TEMPLATE
      let fixed_raw := pyStrip (callLLM cp.1 cp.2)
      match parse fixed_raw with
      | .ok data =>
          (match validate_classification data code with
           | .ok _ => .ok data
           | .error e => .error e,
           { requests := [p, cp], parseAttempts := [raw, fixed_raw] })
      | .error exc2 =>
          (.error (.structuredOutputInvalid "Classification" exc exc2 raw fixed_raw),
           { requests := [p, cp], parseAttempts := [raw, fixed_raw] })

/-- run_classification_step as called by process_file: the result of
the traced embedding. -/
def run_classification_step
    (buildClass : String → String × String)
    (buildCorrection : String → String → String × String)
    (callLLM : String → String → String)
    (parse : String → Except String PyDict)
    (code : String) : Except PipeError PyDict :=
  (run_classification_step_traced buildClass buildCorrection callLLM parse code).1

/-
bin/ai_plsql_review.py, directory orchestrator (lines 693-715)
-/

/-- The per-file loop of main (lines 695-710): process_file is an
opaque fallible action per path; a failure is caught at file
granularity and the loop continues with the next file, appending
nothing for the failed file. -/
def mainResults (process : String → Except PipeError FileResult)
    (files : List String) : List FileResult :=
  files.foldl
    (fun results p =>
      match process p with
      | .ok r => results ++ [r]
      | .error _ => results)
    []

/-- One write to disk performed by a run, by kind. -/
inductive WriteEvent where
  | perFileArtifact (file : String) (kind : String)
  | runLog (file : String)
  | indexUpdate
  | runSummaryJson
  | runSummaryMd
deriving DecidableEq

/-- The writes performed by main (lines 660-718) for a non-empty file
list: each file's process_file writes (empty in dry-run mode, lines
352-418, which only prints prompts; abstracted as perFileWrites
otherwise), followed unconditionally by write_summary_json and
write_summary_md (lines 714-715).  An empty discovery list returns
before any write (lines 678-680). -/
def main_write_events (dry_run : Bool)
    (perFileWrites : String → List WriteEvent)
    (files : List String) : List WriteEvent :=
  if files.isEmpty then []
  else
    (files.foldl (fun ws f => ws ++ (if dry_run then [] else perFileWrites f)) [])
      ++ [.runSummaryJson, .runSummaryMd]

/-- The requests issued to the external service by main: none per file
in dry-run mode (process_file builds and prints the prompts without
calling the service), the file's stage requests otherwise; main itself
never calls the service. -/
def main_llm_requests (dry_run : Bool)
    (perFileRequests : String → List (String × String))
    (files : List String) : List (String × String) :=
  files.foldl (fun rs f => rs ++ (if dry_run then [] else perFileRequests f)) []

/-
Specification-side definitions, for refinement statements
-/

/-- Modelled from the spec: "deduplicated by exact text across files,
first-seen order" — keep the first occurrence of each string, in
order.  Used to compare the code's fold against the spec's words. -/
def firstSeenDedup : List String → List String
  | [] => []
  | x :: xs => x :: firstSeenDedup (xs.filter (fun y => y ≠ x))
termination_by l => l.length
decreasing_by
  exact Nat.lt_succ_of_le (List.length_filter_le _ _)

/-- The original claim's acceptance condition for a classification
reply, stated from the spec's words: all seven categories present and
each one's value a sequence of strings. -/
def claimedClassificationOk (d : PyDict) : Prop :=
  ∀ k ∈ required_categories,
    ∃ xs, dictGet d k = some (.list xs) ∧ ∀ e ∈ xs, ∃ s, e = .str s

/-- The acceptance condition the validator actually implements: the
seven categories present with list values, and every entry of every
key of the dict (including keys beyond the seven) iterating to strings
only. -/
def actualClassificationOk (d : PyDict) : Prop :=
  (∀ k ∈ required_categories, dictContains d k = true) ∧
  (∀ k ∈ required_categories, ∃ xs, dictGet d k = some (.list xs)) ∧
  (∀ kv ∈ d, ∃ es, pyIterate kv.2 = .ok es ∧ ∀ e ∈ es, ∃ s, e = .str s)

/-
Concrete inputs used by the claim theorems
-/

/-- The classification with every category empty (process_file lines
432-440). -/
def emptyClassification : PyDict :=
  [("performance", .list []), ("error_handling", .list []),
   ("logic_correctness", .list []), ("maintainability", .list []),
   ("security", .list []), ("data_integrity", .list []),
   ("uncertainty", .list [])]

/-- The default analysis value (process_file line 442): no risks. -/
def emptyAnalysis : PyDict :=
  [("summary", .str ""), ("risks", .list []), ("assumptions", .list [])]

/-- The single-key classification of the spec's worked example. -/
def criticalKeyClassification : PyDict :=
  [("critical", .list [.str "X"])]

/-- A schema-valid classification extended with an extra key holding a
non-string element. -/
def extraKeyClassification : PyDict :=
  emptyClassification ++ [("extra", .list [.int 1])]

/-- A classification whose single issue dict carries a truthy
non-string severity value. -/
def badSeverityClassification : PyDict :=
  [("performance", .list [.dict [("severity", .int 1)]])]

/-- A file result with risk score 30 and no issues or checklist items. -/
def frScore30 : FileResult :=
  { path := "a.sql", risk_score := 30, summary := "", issues := [],
    refactor_suggestions := [], checklist_items := [] }

/-- A file result with risk score 10 and no issues or checklist items. -/
def frScore10 : FileResult :=
  { path := "b.sql", risk_score := 10, summary := "", issues := [],
    refactor_suggestions := [], checklist_items := [] }

/-- A file result contributing the checklist item of the spec's
deduplication example. -/
def frChecklistA : FileResult :=
  { path := "a.sql", risk_score := 0, summary := "", issues := [],
    refactor_suggestions := [], checklist_items := ["Review: check nulls"] }

/-- A second file result contributing the same checklist item. -/
def frChecklistB : FileResult :=
  { path := "b.sql", risk_score := 0, summary := "", issues := [],
    refactor_suggestions := [], checklist_items := ["Review: check nulls"] }

/-
Derived observables and predicates used by the claim statements
-/

/-- Whether a value is a Python list. -/
def PyVal.isList : PyVal → Bool
  | .list _ => true
  | _ => false

/-- Whether a value is a Python dict. -/
def PyVal.isDict : PyVal → Bool
  | .dict _ => true
  | _ => false

/-- The severity shape that `(v or "").lower()` handles without
raising in a string-keyed issue dict: the entry is absent or a
string.  This is the shape every issue produced by
flatten_issues_from_classification has. -/
def sevShapeOk (o : Option PyVal) : Prop :=
  o = Option.none ∨ ∃ s, o = some (.str s)

/-- The string `(v or "").lower()` evaluates to on a shape-ok severity
entry. -/
def sevLowerStr : Option PyVal → String
  | some (.str s) => pyLower s
  | _ => ""

/-- The lowered severity key of an issue, as tested by
aggregate_results at lines 574-575. -/
def issueSevLower (issue : PyDict) : String :=
  sevLowerStr (dictGet issue "severity")

/-- The red-flag test of line 575. -/
def isHighCrit (issue : PyDict) : Prop :=
  issueSevLower issue = "high" ∨ issueSevLower issue = "critical"

instance (issue : PyDict) : Decidable (isHighCrit issue) := by
  unfold isHighCrit; infer_instance

/-- The red-flag entries one file contributes, in issue order. -/
def redFlagsOf (path : String) (issues : List PyDict) : List RedFlag :=
  (issues.filter (fun i => isHighCrit i)).map (mkRedFlag path)

/-- The red-flag entries of a whole run, in file order. -/
def allRedFlags (frs : List FileResult) : List RedFlag :=
  frs.foldl (fun acc fr => acc ++ redFlagsOf fr.path fr.issues) []

/-- The concatenation of all per-file checklist items, in file order. -/
def allChecklistItems : List FileResult → List String
  | [] => []
  | fr :: rest => fr.checklist_items ++ allChecklistItems rest

/-- Per-file results whose issues all carry an absent-or-string
severity entry — the shape process_file produces (the flattener always
stores one of the four severity strings, and the dry-run stub has no
issues). -/
def WellFormedResults (frs : List FileResult) : Prop :=
  ∀ fr ∈ frs, ∀ issue ∈ fr.issues, sevShapeOk (dictGet issue "severity")

/-- The severity shapes `(v or "medium").lower()` handles without
raising inside processIssue: absent, falsy, or a string. -/
def sevShapeSafe (o : Option PyVal) : Prop :=
  match o with
  | Option.none => True
  | some v => pyTruthy v = false ∨ ∃ s, v = .str s

/-- A classification on which the flattener raises no exception: every
dict element of every list value carries an absent, falsy or string
severity. -/
def FlattenSafe (d : PyDict) : Prop :=
  ∀ kv ∈ d, ∀ items, kv.2 = .list items →
    ∀ i ∈ items, ∀ di, i = .dict di → sevShapeSafe (dictGet di "severity")

/-- The severity inputs the claim about defaulting describes: the
field is absent, null, empty, or a string whose lowercase form is not
one of the four recognized severities. -/
def sevDefaultsMedium (o : Option PyVal) : Prop :=
  o = Option.none ∨ o = some .none ∨ o = some (.str "") ∨
  (∃ s, o = some (.str s) ∧
    pyLower s ∉ (["low", "medium", "high", "critical"] : List String))

/-- The raw reply the classification stage parses first (line 99):
the stripped service reply to the classification request. -/
def classificationRawReply (buildClass : String → String × String)
    (callLLM : String → String → String) (code : String) : String :=
  pyStrip (callLLM (buildClass code).1 (buildClass code).2)

/-- The stripped reply to the correction request (lines 85-86, 105):
the correction request is built from the malformed raw reply and the
canonical template only. -/
def classificationFixedReply (buildClass : String → String × String)
    (buildCorrection : String → String → String × String)
    (callLLM : String → String → String) (code : String) : String :=
  pyStrip (callLLM
    (buildCorrection (classificationRawReply buildClass callLLM code)
      CLASSIFICATION_JSON_TEMPLATE).1
    (buildCorrection (classificationRawReply buildClass callLLM code)
      CLASSIFICATION_JSON_TEMPLATE).2)

/-- A flattened issue dict with high severity. -/
def highIssueDict : PyDict :=
  [("message", .str "boom"), ("category", .str "security"),
   ("severity", .str "high"), ("code", .str "SECURITY")]

/-- A file result carrying one high-severity issue, as flattened. -/
def frHighIssue : FileResult :=
  { path := "c.sql", risk_score := 20, summary := "",
    issues := [highIssueDict],
    refactor_suggestions := [], checklist_items := [] }

/-- The summary the one-high-issue run evaluates to. -/
def redFlagExampleSummary : AggregatedSummary :=
  { run_id := "r", timestamp_utc := "t", scanned_files := 1,
    overall_risk_score := 20,
    red_flags := [mkRedFlag "c.sql" highIssueDict],
    files := [frHighIssue], checklist := [] }

/-- The summary the checklist-deduplication example evaluates to. -/
def checklistExampleSummary : AggregatedSummary :=
  { run_id := "run", timestamp_utc := "t", scanned_files := 2,
    overall_risk_score := 0, red_flags := [],
    files := [frChecklistA, frChecklistB],
    checklist := ["Review: check nulls"] }

/-
Helper lemmas
-/

theorem except_bind_ok {α β : Type} {x : Except PipeError α}
    {f : α → Except PipeError β} {b : β} :
    (x >>= f) = .ok b ↔ ∃ a, x = .ok a ∧ f a = .ok b := by
  cases x <;> simp [Bind.bind, Except.bind]

theorem forM_ok_iff {α : Type} (f : α → Except PipeError Unit) (l : List α) :
    l.forM f = .ok () ↔ ∀ a ∈ l, f a = .ok () := by
  induction l with
  | nil => simp [List.forM, Pure.pure, Except.pure]
  | cons a as ih =>
      simp only [List.forM, List.mem_cons]
      constructor
      · intro h
        rcases except_bind_ok.mp h with ⟨u, hu, hrest⟩
        cases u
        exact fun x hx => hx.elim (fun hxa => hxa ▸ hu) (fun hxs => (ih.mp hrest) x hxs)
      · intro h
        have ha := h a (Or.inl rfl)
        rw [ha]
        exact (except_bind_ok).mpr ⟨(), rfl, ih.mpr fun x hx => h x (Or.inr hx)⟩

theorem dictGet_append_single_ne {d : PyDict} {k1 k : String} {v : PyVal}
    (h : k1 ≠ k) : dictGet (d ++ [(k1, v)]) k = dictGet d k := by
  induction d with
  | nil => simp [dictGet, h]
  | cons kv rest ih =>
      by_cases hk : kv.1 = k
      · simp [dictGet, hk]
      · simp [dictGet, hk, ih]

theorem dictGet_setdefault_ne {d : PyDict} {k1 k : String} {v : PyVal}
    (h : k1 ≠ k) : dictGet (dictSetdefault d k1 v) k = dictGet d k := by
  unfold dictSetdefault
  by_cases hc : dictContains d k1
  · simp [hc]
  · simp [hc, dictGet_append_single_ne h]

theorem dictGet_dictSet_self {d : PyDict} {k : String} {v : PyVal} :
    dictGet (dictSet d k v) k = some v := by
  induction d with
  | nil => simp [dictSet, dictGet]
  | cons kv rest ih =>
      by_cases hk : kv.1 = k
      · simp [dictSet, hk, dictGet]
      · simp [dictSet, hk, dictGet, ih]

theorem ensure_keys_ok_iff (obj : PyDict) (keys : List String) (ctx : String) :
    ensure_keys obj keys ctx = .ok () ↔ ∀ k ∈ keys, dictContains obj k = true := by
  unfold ensure_keys
  rw [forM_ok_iff]
  constructor
  · intro h k hk
    have := h k hk
    by_cases hc : dictContains obj k
    · exact hc
    · simp [hc] at this
  · intro h k hk
    simp [h k hk, Pure.pure, Except.pure]

theorem listcheck_ok_iff (data : PyDict) :
    (required_categories.forM fun key =>
      ((match dictGet data key with
        | some (.list _) => pure ()
        | _ => .error (.schemaViolation ("Classification: " ++ key ++ " should be a list")))
        : Except PipeError Unit))
      = .ok () ↔
    ∀ k ∈ required_categories, ∃ xs, dictGet data k = some (.list xs) := by
  rw [forM_ok_iff]
  constructor
  · intro h k hk
    have hres := h k hk
    cases hget : dictGet data k with
    | none => rw [hget] at hres; simp [Pure.pure] at hres
    | some v =>
        cases v <;> rw [hget] at hres <;> simp [Pure.pure] at hres
        case list xs => exact ⟨xs, rfl⟩
  · intro h k hk
    rcases h k hk with ⟨xs, hxs⟩
    simp [hxs, Pure.pure, Except.pure]

theorem entrycheck_one_ok_iff (kv : String × PyVal) :
    (do
      let issues ← pyIterate kv.2
      issues.forM fun issue =>
        match issue with
        | PyVal.str _ => pure ()
        | _ => .error (.schemaViolation ("Classification: entry in " ++ kv.1 ++ " is not a string")))
      = Except.ok () ↔
    ∃ es, pyIterate kv.2 = .ok es ∧ ∀ e ∈ es, ∃ s, e = PyVal.str s := by
  constructor
  · intro h
    rcases except_bind_ok.mp h with ⟨es, hes, hrest⟩
    refine ⟨es, hes, ?_⟩
    intro e he
    have := (forM_ok_iff _ es).mp hrest e he
    cases e <;> simp [Pure.pure] at this ⊢
  · intro ⟨es, hes, hall⟩
    refine except_bind_ok.mpr ⟨es, hes, ?_⟩
    refine (forM_ok_iff _ es).mpr ?_
    intro e he
    rcases hall e he with ⟨s, rfl⟩
    simp [Pure.pure, Except.pure]

/-- C3 (amended): validate_classification accepts a parsed
classification dictionary iff all seven categories are present, each
of the seven values is a list, and every entry of every key of the
dictionary — including keys beyond the seven — yields only strings
when iterated (a non-iterable value under an extra key is rejected).
For dictionaries whose keys are exactly the seven categories this
coincides with the original claim. -/
theorem validate_classification_accepts_iff :
    ∀ (data : PyDict) (code : String),
    validate_classification data code = .ok () ↔ actualClassificationOk data := by
  intro data code
  unfold validate_classification actualClassificationOk
  constructor
  · intro h
    rcases except_bind_ok.mp h with ⟨u1, h1, hrest⟩
    cases u1
    rcases except_bind_ok.mp hrest with ⟨u2, h2, h3⟩
    cases u2
    refine ⟨(ensure_keys_ok_iff _ _ _).mp h1, (listcheck_ok_iff data).mp h2, ?_⟩
    intro kv hkv
    exact (entrycheck_one_ok_iff kv).mp ((forM_ok_iff _ data).mp h3 kv hkv)
  · intro ⟨hA, hB, hC⟩
    refine except_bind_ok.mpr ⟨(), (ensure_keys_ok_iff _ _ _).mpr hA, ?_⟩
    refine except_bind_ok.mpr ⟨(), (listcheck_ok_iff data).mpr hB, ?_⟩
    exact (forM_ok_iff _ data).mpr fun kv hkv => (entrycheck_one_ok_iff kv).mpr (hC kv hkv)

/-- C3 counterexample: a dictionary holding all seven categories as
(empty) string sequences, plus an extra key whose list contains a
non-string, satisfies the claim's acceptance condition yet is rejected
by the validator — the claim's "accepts if" direction fails. -/
theorem validate_classification_extra_key_counterexample :
    claimedClassificationOk extraKeyClassification ∧
    validate_classification extraKeyClassification "" ≠ .ok () := by
  constructor
  · intro k hk
    fin_cases hk <;>
      exact ⟨[], rfl, fun e he => absurd he (List.not_mem_nil e)⟩
  · intro h
    rw [show validate_classification extraKeyClassification "" =
      .error (.schemaViolation "Classification: entry in extra is not a string") from rfl] at h
    exact Except.noConfusion h

/-- C3 witness: the all-empty classification is accepted, hence
satisfies the implemented acceptance condition. -/
theorem validate_classification_accepts_iff_witness :
    actualClassificationOk emptyClassification :=
  (validate_classification_accepts_iff emptyClassification "").mp rfl

theorem firstSeenDedup_nil : firstSeenDedup [] = [] := by
  simp [firstSeenDedup]

theorem firstSeenDedup_cons (x : String) (xs : List String) :
    firstSeenDedup (x :: xs) = x :: firstSeenDedup (xs.filter (fun y => y ≠ x)) := by
  simp [firstSeenDedup]

theorem mem_firstSeenDedup (xs : List String) (a : String) :
    a ∈ firstSeenDedup xs ↔ a ∈ xs := by
  induction xs using firstSeenDedup.induct with
  | case1 => simp [firstSeenDedup_nil]
  | case2 x rest ih =>
      rw [firstSeenDedup_cons]
      by_cases hax : a = x
      · simp [hax]
      · simp only [List.mem_cons, ih, List.mem_filter]
        constructor
        · intro h
          rcases h with h | ⟨h, _⟩
          · exact Or.inl h
          · exact Or.inr h
        · intro h
          rcases h with h | h
          · exact Or.inl h
          · exact Or.inr ⟨h, by simp [hax]⟩

theorem count_firstSeenDedup (xs : List String) (a : String) :
    (firstSeenDedup xs).count a = if a ∈ xs then 1 else 0 := by
  induction xs using firstSeenDedup.induct with
  | case1 => simp [firstSeenDedup_nil]
  | case2 x rest ih =>
      rw [firstSeenDedup_cons]
      by_cases hax : a = x
      · subst hax
        have hnot : a ∉ firstSeenDedup (rest.filter (fun y => y ≠ a)) := by
          rw [mem_firstSeenDedup]
          intro h
          exact absurd (List.mem_filter.mp h).2 (by simp)
        rw [List.count_cons_self, List.count_eq_zero.mpr hnot]
        simp
      · have : (x :: firstSeenDedup (rest.filter (fun y => y ≠ x))).count a =
            (firstSeenDedup (rest.filter (fun y => y ≠ x))).count a := by
          simp [List.count_cons, Ne.symm hax]
        rw [this, ih]
        by_cases har : a ∈ rest
        · simp [har, List.mem_filter, hax]
        · have : a ∉ rest.filter (fun y => y ≠ x) := fun h =>
            absurd (List.mem_filter.mp h).1 har
          simp [har, this, hax]

theorem foldl_checklistStep_eq (xs : List String) (acc : List String) :
    xs.foldl checklistStep acc = acc ++ firstSeenDedup (xs.filter (fun x => x ∉ acc)) := by
  induction xs generalizing acc with
  | nil => simp [firstSeenDedup_nil]
  | cons x rest ih =>
      simp only [List.foldl_cons]
      by_cases hx : x ∈ acc
      · rw [show checklistStep acc x = acc from by simp [checklistStep, hx]]
        rw [ih]
        congr 2
        simp only [List.filter_cons]
        simp [hx]
      · rw [show checklistStep acc x = acc ++ [x] from by simp [checklistStep, hx]]
        rw [ih]
        have hfilter : rest.filter (fun y => y ∉ acc ++ [x]) =
            (rest.filter (fun y => y ∉ acc)).filter (fun y => y ≠ x) := by
          rw [List.filter_filter]
          refine List.filter_congr ?_
          intro a _
          by_cases hax : a = x <;> by_cases haacc : a ∈ acc <;>
            simp [hax, haacc, List.mem_append]
        rw [hfilter]
        have hcons : (x :: rest).filter (fun y => y ∉ acc) =
            x :: rest.filter (fun y => y ∉ acc) := by
          simp [List.filter_cons, hx]
        rw [hcons, firstSeenDedup_cons, List.append_assoc, List.singleton_append]

theorem aggregate_file_step_snd {acc : List RedFlag × List String} {fr : FileResult}
    {out : List RedFlag × List String} (h : aggregate_file_step acc fr = .ok out) :
    out.2 = fr.checklist_items.foldl checklistStep acc.2 := by
  unfold aggregate_file_step at h
  rcases except_bind_ok.mp h with ⟨rfs, _, hpure⟩
  cases hpure
  rfl

theorem foldlM_aggregate_snd {frs : List FileResult} {acc out : List RedFlag × List String}
    (h : frs.foldlM aggregate_file_step acc = .ok out) :
    out.2 = frs.foldl (fun cl fr => fr.checklist_items.foldl checklistStep cl) acc.2 := by
  induction frs generalizing acc with
  | nil =>
      rw [List.foldlM_nil] at h
      cases h
      rfl
  | cons fr rest ih =>
      rw [List.foldlM_cons] at h
      rcases except_bind_ok.mp h with ⟨acc1, hstep, hrest⟩
      rw [List.foldl_cons, ← aggregate_file_step_snd hstep]
      exact ih hrest

theorem aggregate_fields {rid now : String} {frs : List FileResult} {s : AggregatedSummary}
    (h : aggregate_results rid now frs = .ok s) :
    s.run_id = rid ∧ s.timestamp_utc = now ∧ s.scanned_files = frs.length ∧
    s.overall_risk_score = overall_risk frs ∧ s.files = frs ∧
    ∃ p, frs.foldlM aggregate_file_step ([], []) = .ok p ∧
      s.red_flags = p.1 ∧ s.checklist = p.2 := by
  unfold aggregate_results at h
  rcases except_bind_ok.mp h with ⟨p, hp, hpure⟩
  obtain ⟨rfs, cl⟩ := p
  cases hpure
  exact ⟨rfl, rfl, rfl, rfl, rfl, (rfs, cl), hp, rfl, rfl⟩

theorem nested_checklist_concat (frs : List FileResult) (acc : List String) :
    frs.foldl (fun cl fr => fr.checklist_items.foldl checklistStep cl) acc
      = (allChecklistItems frs).foldl checklistStep acc := by
  induction frs generalizing acc with
  | nil => simp [allChecklistItems]
  | cons fr rest ih =>
      rw [List.foldl_cons, ih, allChecklistItems, List.foldl_append]

/-- C8: run-level checklist aggregation deduplicates by exact text
across files while preserving first-seen order: the aggregate
checklist is exactly the first-occurrence deduplication of the
concatenated per-file checklist items, so each distinct string appears
exactly once (count 1), in first-seen order; in particular two files
each producing "Review: check nulls" yield exactly one aggregate
entry. -/
theorem checklist_dedup_first_seen :
    (∀ rid now frs s, aggregate_results rid now frs = .ok s →
      s.checklist = firstSeenDedup (allChecklistItems frs) ∧
      ∀ x, s.checklist.count x = if x ∈ allChecklistItems frs then 1 else 0) ∧
    (aggregate_results "run" "t" [frChecklistA, frChecklistB] = .ok checklistExampleSummary ∧
     checklistExampleSummary.checklist = ["Review: check nulls"]) := by
  constructor
  · intro rid now frs s h
    obtain ⟨-, -, -, -, -, p, hp, -, hcl⟩ := aggregate_fields h
    have h2 : s.checklist =
        (allChecklistItems frs).foldl checklistStep [] := by
      rw [hcl, foldlM_aggregate_snd hp]
      exact nested_checklist_concat frs []
    have hfilter : (allChecklistItems frs).filter (fun x => x ∉ ([] : List String)) =
        allChecklistItems frs :=
      List.filter_eq_self.mpr (fun a _ => by simp)
    have h3 : s.checklist = firstSeenDedup (allChecklistItems frs) := by
      rw [h2, foldl_checklistStep_eq, hfilter]
      exact List.nil_append _
    exact ⟨h3, fun x => by rw [h3, count_firstSeenDedup]⟩
  · exact ⟨rfl, rfl⟩

/-- C8 witness: the two-file example evaluates through the general
statement. -/
theorem checklist_dedup_first_seen_witness :
    checklistExampleSummary.checklist =
      firstSeenDedup (allChecklistItems [frChecklistA, frChecklistB]) :=
  (checklist_dedup_first_seen.1 "run" "t" [frChecklistA, frChecklistB]
    checklistExampleSummary rfl).1

/-- C6: every risk score the scorer returns lies in [0, 100], and the
all-empty classification together with the empty analysis scores
exactly 0. -/
theorem risk_score_bounds :
    (∀ c a s, compute_risk_score c a = .ok s → 0 ≤ s ∧ s ≤ 100) ∧
    compute_risk_score emptyClassification emptyAnalysis = .ok 0 := by
  constructor
  · intro c a s h
    unfold compute_risk_score at h
    rcases except_bind_ok.mp h with ⟨issues, _, hpure⟩
    cases hpure
    constructor
    · exact le_max_left 0 _
    · exact max_le (by norm_num) (min_le_left _ _)
  · rfl

/-- C6 witness: the bounds evaluated at the empty inputs. -/
theorem risk_score_bounds_witness :
    compute_risk_score emptyClassification emptyAnalysis = .ok 0 ∧
    (0 ≤ (0 : Int) ∧ (0 : Int) ≤ 100) :=
  ⟨risk_score_bounds.2,
   risk_score_bounds.1 emptyClassification emptyAnalysis 0 risk_score_bounds.2⟩

/-- C1 counterexample: the classification of the worked example — the
single key "critical" holding the bare string "X" — does not score 30:
"critical" is a category name here, the issue carries no severity, so
it is normalized to medium and weighs 10. -/
theorem risk_example_counterexample :
    compute_risk_score criticalKeyClassification emptyAnalysis ≠ .ok 30 := by
  intro h
  rw [show compute_risk_score criticalKeyClassification emptyAnalysis = .ok (10 : Int)
    from rfl] at h
  exact absurd (Except.ok.inj h) (by decide)

/-- C1 (amended): the single-key example with no analysis risks scores
10 (its one issue defaults to medium severity), and a run of two
successfully processed files with risk scores 30 and 10 aggregates to
overall_risk_score = 20, the rounded mean. -/
theorem risk_example_amended :
    compute_risk_score criticalKeyClassification emptyAnalysis = .ok 10 ∧
    ∀ fr1 fr2 : FileResult, fr1.risk_score = 30 → fr2.risk_score = 10 →
      ∀ rid now s, aggregate_results rid now [fr1, fr2] = .ok s →
        s.overall_risk_score = 20 := by
  refine ⟨rfl, ?_⟩
  intro fr1 fr2 h1 h2 rid now s h
  obtain ⟨-, -, -, hov, -, p, hp, hrf, hcl⟩ := aggregate_fields h
  have hlist : overall_risk [fr1, fr2] =
      pyRoundDiv (0 + fr1.risk_score + fr2.risk_score) 2 := by
    simp [overall_risk]
  rw [hov, hlist, h1, h2]
  rfl

/-- C1 witness: the amended aggregate statement at the concrete pair
of file results with scores 30 and 10. -/
theorem risk_example_amended_witness :
    (aggregate_results "run" "t" [frScore30, frScore10]).map
      (fun s => s.overall_risk_score) = .ok 20 := by
  have h : aggregate_results "run" "t" [frScore30, frScore10] =
      .ok { run_id := "run", timestamp_utc := "t", scanned_files := 2,
            overall_risk_score := 20, red_flags := [],
            files := [frScore30, frScore10], checklist := [] } := rfl
  have hov := risk_example_amended.2 frScore30 frScore10 rfl rfl "run" "t" _ h
  rw [h, Except.map, hov]

theorem processIssue_dict_unfold (category : String) (d : PyDict) :
    processIssue category (.dict d) =
      match (match dictGet (dictSetdefault d "category" (.str category)) "severity" with
             | some v => if pyTruthy v then v else PyVal.str "medium"
             | Option.none => PyVal.str "medium") with
      | .str s =>
          .ok (dictSetdefault
                (dictSet (dictSetdefault d "category" (.str category)) "severity"
                  (.str (if pyLower s = "low" ∨ pyLower s = "medium" ∨
                         pyLower s = "high" ∨ pyLower s = "critical"
                         then pyLower s else "medium")))
                "code" (.str (pyUpper category)))
      | _ => .error (.attributeError "lower") := by
  unfold processIssue
  cases hm : (match dictGet (dictSetdefault d "category" (.str category)) "severity" with
    | some v => if pyTruthy v then v else PyVal.str "medium"
    | Option.none => PyVal.str "medium") <;>
    simp [Bind.bind, Except.bind, hm]

theorem processIssue_dict_str (category : String) (d : PyDict) (s1 : String)
    (hsev : (match dictGet d "severity" with
             | some v => if pyTruthy v then v else PyVal.str "medium"
             | Option.none => PyVal.str "medium") = .str s1) :
    processIssue category (.dict d) =
      .ok (dictSetdefault
            (dictSet (dictSetdefault d "category" (.str category)) "severity"
              (.str (if pyLower s1 = "low" ∨ pyLower s1 = "medium" ∨
                     pyLower s1 = "high" ∨ pyLower s1 = "critical"
                     then pyLower s1 else "medium")))
            "code" (.str (pyUpper category))) := by
  have hget : dictGet (dictSetdefault d "category" (.str category)) "severity"
      = dictGet d "severity" := dictGet_setdefault_ne (by decide)
  rw [processIssue_dict_unfold, hget, hsev]

/-- C9: an issue dict whose severity entry is absent, null, empty, or
a string whose lowercase form is not one of the four recognized
severities, is flattened with severity exactly "medium". -/
theorem severity_defaults_to_medium :
    ∀ (category : String) (d : PyDict), sevDefaultsMedium (dictGet d "severity") →
    ∃ d2, processIssue category (.dict d) = .ok d2 ∧
      dictGet d2 "severity" = some (.str "medium") := by
  intro category d h
  have hcode : ∀ (x : PyDict) (v : PyVal),
      dictGet (dictSetdefault (dictSet x "severity" v) "code"
        (.str (pyUpper category))) "severity" = some v := by
    intro x v
    rw [dictGet_setdefault_ne (by decide), dictGet_dictSet_self]
  rcases h with h0 | h0 | h0 | ⟨s, h0, hs⟩
  · rw [processIssue_dict_str category d "medium" (by rw [h0])]
    exact ⟨_, rfl, by rw [hcode]; exact rfl⟩
  · rw [processIssue_dict_str category d "medium" (by rw [h0]; exact rfl)]
    exact ⟨_, rfl, by rw [hcode]; exact rfl⟩
  · rw [processIssue_dict_str category d "medium" (by rw [h0]; exact rfl)]
    exact ⟨_, rfl, by rw [hcode]; exact rfl⟩
  · by_cases hse : s = ""
    · subst hse
      rw [processIssue_dict_str category d "medium" (by rw [h0]; exact rfl)]
      exact ⟨_, rfl, by rw [hcode]; exact rfl⟩
    · have htr : pyTruthy (.str s) = true := by simp [pyTruthy, hse]
      rw [processIssue_dict_str category d s (by rw [h0]; simp [htr])]
      have hcond : ¬(pyLower s = "low" ∨ pyLower s = "medium" ∨
          pyLower s = "high" ∨ pyLower s = "critical") := by
        simp only [List.mem_cons, List.mem_singleton, List.not_mem_nil] at hs
        tauto
      rw [if_neg hcond]
      exact ⟨_, rfl, by rw [hcode]⟩

/-- C9 witness: an issue dict with no severity entry at all is
normalized to medium. -/
theorem severity_defaults_to_medium_witness :
    processIssue "security" (.dict []) =
      .ok [("category", PyVal.str "security"), ("severity", PyVal.str "medium"),
           ("code", PyVal.str "SECURITY")] ∧
    dictGet [("category", PyVal.str "security"), ("severity", PyVal.str "medium"),
             ("code", PyVal.str "SECURITY")] "severity" = some (.str "medium") := by
  obtain ⟨d2, h1, h2⟩ := severity_defaults_to_medium "security" [] (Or.inl rfl)
  have hd : d2 = [("category", PyVal.str "security"), ("severity", PyVal.str "medium"),
      ("code", PyVal.str "SECURITY")] :=
    Except.ok.inj (h1.symm.trans rfl)
  subst hd
  exact ⟨h1, h2⟩

theorem processIssue_nondict (category : String) (v : PyVal)
    (h : v.isDict = false) :
    processIssue category v =
      .ok [("message", .str (pyStr v)), ("category", .str category),
           ("severity", .str "medium"), ("code", .str (pyUpper category))] := by
  cases v with
  | dict kvs => simp [PyVal.isDict] at h
  | str s => exact rfl
  | int n => exact rfl
  | bool b => exact rfl
  | none => exact rfl
  | list xs => exact rfl

theorem processIssue_ok_of_safe (category : String) (issue : PyVal)
    (h : ∀ di, issue = .dict di → sevShapeSafe (dictGet di "severity")) :
    ∃ d2, processIssue category issue = .ok d2 := by
  cases hi : issue with
  | dict di =>
      have hsafe := h di hi
      unfold sevShapeSafe at hsafe
      cases hget : dictGet di "severity" with
      | none =>
          exact ⟨_, processIssue_dict_str category di "medium" (by rw [hget])⟩
      | some v =>
          rw [hget] at hsafe
          rcases hsafe with hfalsy | ⟨s, rfl⟩
          · exact ⟨_, processIssue_dict_str category di "medium"
              (by rw [hget]; simp [hfalsy])⟩
          · by_cases hse : s = ""
            · subst hse
              exact ⟨_, processIssue_dict_str category di "medium"
                (by rw [hget]; exact rfl)⟩
            · have htr : pyTruthy (.str s) = true := by simp [pyTruthy, hse]
              exact ⟨_, processIssue_dict_str category di s
                (by rw [hget]; simp [htr])⟩
  | str s => exact ⟨_, rfl⟩
  | int n => exact ⟨_, rfl⟩
  | bool b => exact ⟨_, rfl⟩
  | none => exact ⟨_, rfl⟩
  | list xs => exact ⟨_, rfl⟩

theorem foldlM_appendIssues_ok (category : String) (items : List PyVal)
    (h : ∀ i ∈ items, ∃ o, processIssue category i = .ok o) :
    ∀ acc, ∃ out,
      items.foldlM
        (fun acc issue => do
          let issue_dict ← processIssue category issue
          pure (acc ++ [issue_dict]))
        acc = .ok out := by
  induction items with
  | nil => exact fun acc => ⟨acc, by rw [List.foldlM_nil]; rfl⟩
  | cons i rest ih =>
      intro acc
      rcases h i (List.mem_cons_self i rest) with ⟨o, ho⟩
      rcases ih (fun x hx => h x (List.mem_cons_of_mem i hx)) (acc ++ [o]) with ⟨out, hout⟩
      refine ⟨out, ?_⟩
      rw [List.foldlM_cons]
      rw [show ((do
            let issue_dict ← processIssue category i
            pure (acc ++ [issue_dict])) : Except PipeError (List PyDict)) =
          .ok (acc ++ [o]) from by rw [ho]; rfl]
      simpa [Bind.bind, Except.bind] using hout

theorem flattenStep_ok_of_safe (acc : List PyDict) (kv : String × PyVal)
    (h : ∀ items, kv.2 = .list items →
      ∀ i ∈ items, ∀ di, i = .dict di → sevShapeSafe (dictGet di "severity")) :
    ∃ out, flattenStep acc kv = .ok out := by
  unfold flattenStep
  cases hv : kv.2 with
  | list items =>
      exact foldlM_appendIssues_ok kv.1 items
        (fun i hi => processIssue_ok_of_safe kv.1 i
          (fun di hdi => h items hv i hi di hdi)) acc
  | str s => exact ⟨acc, rfl⟩
  | int n => exact ⟨acc, rfl⟩
  | bool b => exact ⟨acc, rfl⟩
  | none => exact ⟨acc, rfl⟩
  | dict kvs => exact ⟨acc, rfl⟩

theorem foldlM_flattenStep_ok (d : PyDict)
    (h : ∀ kv ∈ d, ∀ items, kv.2 = .list items →
      ∀ i ∈ items, ∀ di, i = .dict di → sevShapeSafe (dictGet di "severity")) :
    ∀ acc, ∃ out, d.foldlM flattenStep acc = .ok out := by
  induction d with
  | nil => exact fun acc => ⟨acc, by rw [List.foldlM_nil]; rfl⟩
  | cons kv rest ih =>
      intro acc
      rcases flattenStep_ok_of_safe acc kv
        (fun items hv i hi di hdi =>
          h kv (List.mem_cons_self kv rest) items hv i hi di hdi) with ⟨mid, hmid⟩
      rcases ih (fun x hx => h x (List.mem_cons_of_mem kv hx)) mid with ⟨out, hout⟩
      refine ⟨out, ?_⟩
      rw [List.foldlM_cons, hmid]
      simpa [Bind.bind, Except.bind] using hout

theorem foldlM_flattenStep_filter (d : PyDict) :
    ∀ acc, d.foldlM flattenStep acc =
      (d.filter (fun kv => kv.2.isList)).foldlM flattenStep acc := by
  induction d with
  | nil => intro acc; rfl
  | cons kv rest ih =>
      intro acc
      obtain ⟨k, v⟩ := kv
      cases v with
      | list items =>
          rw [show List.filter (fun kv => kv.2.isList) ((k, PyVal.list items) :: rest) =
              (k, PyVal.list items) :: rest.filter (fun kv => kv.2.isList) from by
            simp [List.filter_cons, PyVal.isList]]
          rw [List.foldlM_cons, List.foldlM_cons]
          cases hres : flattenStep acc (k, PyVal.list items) with
          | ok mid => simp [Bind.bind, Except.bind, ih mid]
          | error e => simp [Bind.bind, Except.bind]
      | str s =>
          rw [show List.filter (fun kv => kv.2.isList) ((k, PyVal.str s) :: rest) =
              rest.filter (fun kv => kv.2.isList) from by
            simp [List.filter_cons, PyVal.isList]]
          rw [List.foldlM_cons,
            show flattenStep acc (k, PyVal.str s) = .ok acc from rfl]
          simpa [Bind.bind, Except.bind] using ih acc
      | int n =>
          rw [show List.filter (fun kv => kv.2.isList) ((k, PyVal.int n) :: rest) =
              rest.filter (fun kv => kv.2.isList) from by
            simp [List.filter_cons, PyVal.isList]]
          rw [List.foldlM_cons,
            show flattenStep acc (k, PyVal.int n) = .ok acc from rfl]
          simpa [Bind.bind, Except.bind] using ih acc
      | bool b =>
          rw [show List.filter (fun kv => kv.2.isList) ((k, PyVal.bool b) :: rest) =
              rest.filter (fun kv => kv.2.isList) from by
            simp [List.filter_cons, PyVal.isList]]
          rw [List.foldlM_cons,
            show flattenStep acc (k, PyVal.bool b) = .ok acc from rfl]
          simpa [Bind.bind, Except.bind] using ih acc
      | none =>
          rw [show List.filter (fun kv => kv.2.isList) ((k, PyVal.none) :: rest) =
              rest.filter (fun kv => kv.2.isList) from by
            simp [List.filter_cons, PyVal.isList]]
          rw [List.foldlM_cons,
            show flattenStep acc (k, PyVal.none) = .ok acc from rfl]
          simpa [Bind.bind, Except.bind] using ih acc
      | dict kvs =>
          rw [show List.filter (fun kv => kv.2.isList) ((k, PyVal.dict kvs) :: rest) =
              rest.filter (fun kv => kv.2.isList) from by
            simp [List.filter_cons, PyVal.isList]]
          rw [List.foldlM_cons,
            show flattenStep acc (k, PyVal.dict kvs) = .ok acc from rfl]
          simpa [Bind.bind, Except.bind] using ih acc

/-- C10 counterexample: on the classification whose single issue dict
carries the truthy non-string severity 1, the flattener raises
(AttributeError from calling .lower() on an int) — it is not total on
arbitrary dictionaries. -/
theorem flatten_raises_counterexample :
    flatten_issues_from_classification badSeverityClassification =
      .error (.attributeError "lower") := rfl

/-- C10 (amended): the flattener never raises provided no issue dict
carries a truthy non-string severity value; a key whose value is not a
list is silently skipped and contributes no issues; and a list element
that is not a dictionary is converted to an issue whose message is the
element's string form (with category, default medium severity and
default code attached).  A dict element whose severity entry is truthy
but not a string makes the flattener raise. -/
theorem flatten_total_amended :
    (∀ d, FlattenSafe d →
      ∃ l, flatten_issues_from_classification d = .ok l) ∧
    (∀ d, flatten_issues_from_classification d =
      flatten_issues_from_classification (d.filter (fun kv => kv.2.isList))) ∧
    (∀ (category : String) (v : PyVal), v.isDict = false →
      processIssue category v =
        .ok [("message", .str (pyStr v)), ("category", .str category),
             ("severity", .str "medium"), ("code", .str (pyUpper category))]) := by
  refine ⟨?_, ?_, processIssue_nondict⟩
  · intro d h
    exact foldlM_flattenStep_ok d h []
  · intro d
    exact foldlM_flattenStep_filter d []

/-- C10 witness: the amended statement evaluated at the empty
classification and at a bare string issue element. -/
theorem flatten_total_amended_witness :
    flatten_issues_from_classification [] = .ok [] ∧
    processIssue "performance" (.str "slow scan") =
      .ok [("message", .str (pyStr (.str "slow scan"))),
           ("category", .str "performance"),
           ("severity", .str "medium"), ("code", .str (pyUpper "performance"))] := by
  obtain ⟨l, hl⟩ :=
    flatten_total_amended.1 [] (fun kv hkv => absurd hkv (List.not_mem_nil kv))
  have hnil : l = [] := Except.ok.inj (hl.symm.trans rfl)
  subst hnil
  exact ⟨hl, flatten_total_amended.2.2 "performance" (.str "slow scan") rfl⟩

/-- C2 (code bug): a dry-evaluation run over one valid input file
issues no request to the external service and performs no per-file
writes, but main still writes the run-level summary.json and
summary.md unconditionally after the loop (lines 714-715) — contrary
to the claim, to the option's own help text ("do not call the LLM or
write outputs") and to the dry-run branch's printed statement that no
files were written. -/
theorem dry_run_still_writes_summary :
    ∀ (perFileWrites : String → List WriteEvent)
      (perFileRequests : String → List (String × String)),
      main_write_events true perFileWrites ["example.sql"] =
        [.runSummaryJson, .runSummaryMd] ∧
      main_llm_requests true perFileRequests ["example.sql"] = [] := by
  intro pw pr
  exact ⟨rfl, rfl⟩

/-- C4: one structured classification invocation makes at most two
parse attempts — the first on the stripped original reply, and, only
when that fails, a second on the stripped correction reply — and the
only request beyond the classification request itself is the
correction request, built from the malformed raw reply and the
stage's canonical template alone (the source file content is not an
input of the correction request). -/
theorem classification_step_attempts :
    ∀ (buildClass : String → String × String)
      (buildCorrection : String → String → String × String)
      (callLLM : String → String → String)
      (parse : String → Except String PyDict)
      (code : String),
    (run_classification_step_traced buildClass buildCorrection callLLM parse
        code).2.parseAttempts.length ≤ 2 ∧
    (((run_classification_step_traced buildClass buildCorrection callLLM parse
          code).2.requests = [buildClass code] ∧
      (run_classification_step_traced buildClass buildCorrection callLLM parse
          code).2.parseAttempts =
        [classificationRawReply buildClass callLLM code]) ∨
     ((run_classification_step_traced buildClass buildCorrection callLLM parse
          code).2.requests =
        [buildClass code,
         buildCorrection (classificationRawReply buildClass callLLM code)
           CLASSIFICATION_JSON_TEMPLATE] ∧
      (run_classification_step_traced buildClass buildCorrection callLLM parse
          code).2.parseAttempts =
        [classificationRawReply buildClass callLLM code,
         classificationFixedReply buildClass buildCorrection callLLM code])) := by
  intro bc bj llm parse code
  unfold run_classification_step_traced classificationFixedReply classificationRawReply
  cases h1 : parse (pyStrip (llm (bc code).1 (bc code).2)) with
  | ok data => exact ⟨by simp [h1], Or.inl (by simp [h1])⟩
  | error e1 =>
      cases h2 : parse (pyStrip (llm
          (bj (pyStrip (llm (bc code).1 (bc code).2)) CLASSIFICATION_JSON_TEMPLATE).1
          (bj (pyStrip (llm (bc code).1 (bc code).2)) CLASSIFICATION_JSON_TEMPLATE).2)) with
      | ok data => exact ⟨by simp [h1, h2], Or.inr (by simp [h1, h2])⟩
      | error e2 => exact ⟨by simp [h1, h2], Or.inr (by simp [h1, h2])⟩

/-- C5: when both the original parse and the single correction-pass
parse fail, the classification stage fails with
structuredOutputInvalid carrying both parse errors and both raw
texts; the orchestrator's per-file loop drops a failed file and
continues with the remaining files unchanged; and scanned_files counts
exactly the successfully processed results. -/
theorem structured_failure_isolation :
    (∀ (buildClass : String → String × String)
       (buildCorrection : String → String → String × String)
       (callLLM : String → String → String)
       (parse : String → Except String PyDict) (code : String) (e1 e2 : String),
      parse (classificationRawReply buildClass callLLM code) = .error e1 →
      parse (classificationFixedReply buildClass buildCorrection callLLM code)
        = .error e2 →
      run_classification_step buildClass buildCorrection callLLM parse code =
        .error (.structuredOutputInvalid "Classification" e1 e2
          (classificationRawReply buildClass callLLM code)
          (classificationFixedReply buildClass buildCorrection callLLM code))) ∧
    (∀ (process : String → Except PipeError FileResult) (fs1 fs2 : List String)
       (f : String) (e : PipeError), process f = .error e →
      mainResults process (fs1 ++ f :: fs2) = mainResults process (fs1 ++ fs2)) ∧
    (∀ rid now frs s, aggregate_results rid now frs = .ok s →
      s.scanned_files = frs.length) := by
  refine ⟨?_, ?_, ?_⟩
  · intro bc bj llm parse code e1 e2 h1 h2
    unfold run_classification_step run_classification_step_traced
    unfold classificationRawReply at h1
    unfold classificationFixedReply classificationRawReply at h2
    simp only [h1, h2]
    rfl
  · intro process fs1 fs2 f e h
    unfold mainResults
    rw [List.foldl_append, List.foldl_append, List.foldl_cons]
    rw [show (match process f with
        | Except.ok r => (List.foldl
            (fun results p => match process p with
              | Except.ok r => results ++ [r]
              | Except.error _ => results) [] fs1) ++ [r]
        | Except.error _ => List.foldl
            (fun results p => match process p with
              | Except.ok r => results ++ [r]
              | Except.error _ => results) [] fs1) =
      List.foldl
        (fun results p => match process p with
          | Except.ok r => results ++ [r]
          | Except.error _ => results) [] fs1 from by rw [h]]
  · intro rid now frs s h
    exact (aggregate_fields h).2.2.1

/-- C5 witness: the failure shape at a parser that always fails, and
the orchestrator applied to a middle file that fails while its
neighbours succeed. -/
theorem structured_failure_isolation_witness :
    run_classification_step (fun _ => ("s", "u")) (fun _ _ => ("cs", "cu"))
        (fun _ _ => "notjson") (fun _ => .error "boom") "code" =
      .error (.structuredOutputInvalid "Classification" "boom" "boom"
        "notjson" "notjson") ∧
    mainResults (fun p => if p = "b.sql" then .error (.schemaViolation "bad")
        else .ok frScore10) ["a.sql", "b.sql", "c.sql"] =
      mainResults (fun p => if p = "b.sql" then .error (.schemaViolation "bad")
        else .ok frScore10) ["a.sql", "c.sql"] ∧
    checklistExampleSummary.scanned_files = 2 := by
  refine ⟨?_, ?_, ?_⟩
  · have h := structured_failure_isolation.1 (fun _ => ("s", "u"))
      (fun _ _ => ("cs", "cu")) (fun _ _ => "notjson")
      (fun _ => .error "boom") "code" "boom" "boom" rfl rfl
    exact h
  · exact structured_failure_isolation.2.1
      (fun p => if p = "b.sql" then .error (.schemaViolation "bad")
        else .ok frScore10) ["a.sql"] ["c.sql"] "b.sql" (.schemaViolation "bad")
      rfl
  · exact structured_failure_isolation.2.2 "run" "t" [frChecklistA, frChecklistB]
      checklistExampleSummary rfl

theorem pyLowerOrEmpty_shape {o : Option PyVal} (h : sevShapeOk o) :
    pyLowerOrEmpty o = .ok (sevLowerStr o) := by
  rcases h with rfl | ⟨s, rfl⟩
  · rfl
  · by_cases hs : s = ""
    · subst hs; rfl
    · unfold pyLowerOrEmpty sevLowerStr
      simp [pyTruthy, hs]

theorem redFlagStep_shape (path : String) (rfs : List RedFlag) (issue : PyDict)
    (h : sevShapeOk (dictGet issue "severity")) :
    redFlagStep path rfs issue =
      .ok (rfs ++ if isHighCrit issue then [mkRedFlag path issue] else []) := by
  unfold redFlagStep
  rw [pyLowerOrEmpty_shape h]
  by_cases hc : isHighCrit issue
  · rw [if_pos hc]
    unfold isHighCrit issueSevLower at hc
    simp [Bind.bind, Except.bind, hc]
  · rw [if_neg hc]
    unfold isHighCrit issueSevLower at hc
    simp [Bind.bind, Except.bind, hc]

theorem foldlM_redFlagStep (path : String) (issues : List PyDict)
    (h : ∀ i ∈ issues, sevShapeOk (dictGet i "severity")) :
    ∀ rfs, issues.foldlM (redFlagStep path) rfs = .ok (rfs ++ redFlagsOf path issues) := by
  induction issues with
  | nil =>
      intro rfs
      rw [List.foldlM_nil]
      simp [redFlagsOf, Pure.pure, Except.pure]
  | cons i rest ih =>
      intro rfs
      rw [List.foldlM_cons,
        redFlagStep_shape path rfs i (h i (List.mem_cons_self i rest))]
      have hrest := ih (fun x hx => h x (List.mem_cons_of_mem i hx))
      simp only [Bind.bind, Except.bind]
      rw [hrest]
      unfold redFlagsOf
      by_cases hc : isHighCrit i
      · simp [List.filter_cons, hc]
      · simp [List.filter_cons, hc]

theorem aggregate_file_step_wf (acc : List RedFlag × List String) (fr : FileResult)
    (h : ∀ issue ∈ fr.issues, sevShapeOk (dictGet issue "severity")) :
    aggregate_file_step acc fr =
      .ok (acc.1 ++ redFlagsOf fr.path fr.issues,
           fr.checklist_items.foldl checklistStep acc.2) := by
  unfold aggregate_file_step
  rw [foldlM_redFlagStep fr.path fr.issues h acc.1]
  rfl

theorem foldlM_aggregate_wf (frs : List FileResult) (h : WellFormedResults frs) :
    ∀ acc, frs.foldlM aggregate_file_step acc =
      .ok (frs.foldl (fun a fr => a ++ redFlagsOf fr.path fr.issues) acc.1,
           frs.foldl (fun cl fr => fr.checklist_items.foldl checklistStep cl) acc.2) := by
  induction frs with
  | nil =>
      intro acc
      rw [List.foldlM_nil]
      rfl
  | cons fr rest ih =>
      intro acc
      rw [List.foldlM_cons,
        aggregate_file_step_wf acc fr (fun i hi => h fr (List.mem_cons_self fr rest) i hi)]
      have hrest := ih (fun x hx i hi => h x (List.mem_cons_of_mem fr hx) i hi)
      simp only [Bind.bind, Except.bind]
      rw [hrest]
      rfl

theorem aggregate_results_wf (rid now : String) (frs : List FileResult)
    (h : WellFormedResults frs) :
    aggregate_results rid now frs =
      .ok { run_id := rid, timestamp_utc := now, scanned_files := frs.length,
            overall_risk_score := overall_risk frs,
            red_flags := allRedFlags frs, files := frs,
            checklist := firstSeenDedup (allChecklistItems frs) } := by
  unfold aggregate_results allRedFlags
  rw [foldlM_aggregate_wf frs h ([], [])]
  have hcl : (allChecklistItems frs).filter (fun x => x ∉ ([] : List String)) =
      allChecklistItems frs :=
    List.filter_eq_self.mpr (fun a _ => by simp)
  simp only [Bind.bind, Except.bind]
  rw [nested_checklist_concat, foldl_checklistStep_eq, hcl, List.nil_append]

theorem mem_foldl_append {β γ : Type} (g : γ → List β) (l : List γ) :
    ∀ (init : List β) (b : β),
      b ∈ l.foldl (fun acc x => acc ++ g x) init ↔ b ∈ init ∨ ∃ x ∈ l, b ∈ g x := by
  induction l with
  | nil => intro init b; simp
  | cons c rest ih =>
      intro init b
      rw [List.foldl_cons, ih]
      simp only [List.mem_append, List.mem_cons]
      constructor
      · rintro ((h | h) | ⟨x, hx, hb⟩)
        · exact Or.inl h
        · exact Or.inr ⟨c, Or.inl rfl, h⟩
        · exact Or.inr ⟨x, Or.inr hx, hb⟩
      · rintro (h | ⟨x, (rfl | hx), hb⟩)
        · exact Or.inl (Or.inl h)
        · exact Or.inl (Or.inr hb)
        · exact Or.inr ⟨x, hx, hb⟩

theorem sevLowerStr_congr {o o2 : Option PyVal} (h : sevShapeOk o) (h2 : sevShapeOk o2)
    (heq : o.getD .none = o2.getD .none) : sevLowerStr o = sevLowerStr o2 := by
  rcases h with rfl | ⟨s, rfl⟩ <;> rcases h2 with rfl | ⟨s2, rfl⟩
  · rfl
  · exact absurd (heq.trans (Option.getD_some)) (fun hx => PyVal.noConfusion hx)
  · exact absurd ((Option.getD_some).symm.trans heq) (fun hx => PyVal.noConfusion hx)
  · rw [Option.getD_some, Option.getD_some] at heq
    rw [show s = s2 from PyVal.str.inj heq]

/-- C7: over well-formed per-file results (severity entries absent or
strings, the shape the flattener guarantees), the run-level red_flags
contains the entry for an issue iff that issue's lowered severity is
high or critical — so low/medium issues never appear — and every
red-flag entry originates from some high/critical issue of some file,
annotated with that file's path. -/
theorem red_flags_iff :
    ∀ rid now frs s, WellFormedResults frs →
      aggregate_results rid now frs = .ok s →
      (∀ fr ∈ frs, ∀ issue ∈ fr.issues,
        (isHighCrit issue ↔ mkRedFlag fr.path issue ∈ s.red_flags)) ∧
      (∀ e ∈ s.red_flags, ∃ fr ∈ frs, ∃ issue ∈ fr.issues,
        isHighCrit issue ∧ e = mkRedFlag fr.path issue) := by
  intro rid now frs s hwf hok
  have hs : s =
      { run_id := rid, timestamp_utc := now, scanned_files := frs.length,
        overall_risk_score := overall_risk frs,
        red_flags := allRedFlags frs, files := frs,
        checklist := firstSeenDedup (allChecklistItems frs) } :=
    (Except.ok.inj ((aggregate_results_wf rid now frs hwf).symm.trans hok)).symm
  have hred : s.red_flags = allRedFlags frs := by rw [hs]
  constructor
  · intro fr hfr issue hissue
    rw [hred]
    unfold allRedFlags
    rw [mem_foldl_append]
    constructor
    · intro hc
      exact Or.inr ⟨fr, hfr, List.mem_map.mpr
        ⟨issue, List.mem_filter.mpr ⟨hissue, decide_eq_true hc⟩, rfl⟩⟩
    · intro hmem
      rcases hmem with hnil | ⟨fr2, hfr2, hin⟩
      · exact absurd hnil (List.not_mem_nil _)
      · rcases List.mem_map.mp hin with ⟨issue2, hfil, heq⟩
        have hissue2 := (List.mem_filter.mp hfil).1
        have hc2 : isHighCrit issue2 := of_decide_eq_true (List.mem_filter.mp hfil).2
        have hsev : (dictGet issue2 "severity").getD .none =
            (dictGet issue "severity").getD .none := by
          have := congrArg RedFlag.severity heq
          simpa [mkRedFlag] using this
        have hlow : sevLowerStr (dictGet issue2 "severity") =
            sevLowerStr (dictGet issue "severity") :=
          sevLowerStr_congr (hwf fr2 hfr2 issue2 hissue2) (hwf fr hfr issue hissue) hsev
        unfold isHighCrit issueSevLower at hc2 ⊢
        rw [← hlow]
        exact hc2
  · intro e hmem
    rw [hred] at hmem
    unfold allRedFlags at hmem
    rcases (mem_foldl_append _ frs [] e).mp hmem with hnil | ⟨fr, hfr, hin⟩
    · exact absurd hnil (List.not_mem_nil e)
    · rcases List.mem_map.mp hin with ⟨issue, hfil, heq⟩
      exact ⟨fr, hfr, issue, (List.mem_filter.mp hfil).1,
        of_decide_eq_true (List.mem_filter.mp hfil).2, heq.symm⟩

/-- C7 witness: a single file with one high-severity issue puts
exactly that entry, tagged with the file's path, into red_flags. -/
theorem red_flags_iff_witness :
    isHighCrit highIssueDict ∧
    mkRedFlag "c.sql" highIssueDict ∈ redFlagExampleSummary.red_flags := by
  have hwf : WellFormedResults [frHighIssue] := by
    intro fr hfr issue hissue
    have hfr2 : fr = frHighIssue := List.mem_singleton.mp hfr
    subst hfr2
    have hissue2 : issue = highIssueDict := List.mem_singleton.mp hissue
    subst hissue2
    exact Or.inr ⟨"high", rfl⟩
  have h := red_flags_iff "r" "t" [frHighIssue] redFlagExampleSummary hwf rfl
  exact ⟨Or.inl rfl,
    (h.1 frHighIssue (List.mem_singleton.mpr rfl) highIssueDict
      (List.mem_singleton.mpr rfl)).mp (Or.inl rfl)⟩
